import Mathlib

/-!
Verification development for the `otus_server` repository: a shallow
embedding of the static-file HTTP server (`htttpd.py`, `httpcls.py`).

Bytes are modelled as `Nat` values (0..255), Python `str` values as
`List Char` (one `Char` per code point), and the filesystem as a record of
pure query functions.  Stateful socket interaction is modelled by explicit
data: the received buffer of a connection is a `List Nat`, the chunks
returned by successive `recv` calls form a `List (List Nat)`, and the
observable outcome of handling one connection is a `ConnResult` recording
the responses sent, the number of `close` calls, and whether an uncaught
exception escaped the handler.
-/

/-! ### Python string primitives -/

/-- Code points that Python's `str.strip()` / `str.split()` treat as
whitespace, restricted to the Latin-1 range (all characters produced by
an `iso-8859-1` decode): tab, LF, VT, FF, CR, FS, GS, RS, US, space,
NEL (0x85) and NBSP (0xA0). -/
def pyIsSpace (c : Char) : Bool :=
  c.toNat == 9 || c.toNat == 10 || c.toNat == 11 || c.toNat == 12 ||
  c.toNat == 13 || c.toNat == 28 || c.toNat == 29 || c.toNat == 30 ||
  c.toNat == 31 || c.toNat == 32 || c.toNat == 133 || c.toNat == 160

/-- Python `str(data, "iso-8859-1")`: each byte becomes the character with
that code point; the decode is total. -/
def decodeLatin1 (bs : List Nat) : List Char := bs.map Char.ofNat

/-- Python `str.strip()`: drop leading and trailing whitespace. -/
def pyStrip (l : List Char) : List Char :=
  ((l.dropWhile pyIsSpace).reverse.dropWhile pyIsSpace).reverse

/-- Python `str.split("\r\n")` on a character list: split at every CRLF
occurrence, left to right.  Always returns at least one piece. -/
def splitCRLFChars : List Char → List (List Char)
  | [] => [[]]
  | [c] => [[c]]
  | c1 :: c2 :: t =>
    if c1 = Char.ofNat 13 ∧ c2 = Char.ofNat 10 then [] :: splitCRLFChars t
    else
      match splitCRLFChars (c2 :: t) with
      | h :: r => (c1 :: h) :: r
      | [] => [[c1]]

/-- Helper for `pySplitWS`: walk the string keeping the (reversed)
characters of the token being built. -/
def pySplitWSAux : List Char → List Char → List (List Char)
  | [], acc => if acc.isEmpty then [] else [acc.reverse]
  | c :: t, acc =>
    if pyIsSpace c then
      if acc.isEmpty then pySplitWSAux t [] else acc.reverse :: pySplitWSAux t []
    else pySplitWSAux t (c :: acc)

/-- Python `str.split()` with no argument: maximal runs of non-whitespace
characters, with no empty tokens. -/
def pySplitWS (l : List Char) : List (List Char) := pySplitWSAux l []

/-- Python `s.partition(sep)[-1]` for a one-character separator: everything
after the first occurrence, or the empty string when absent. -/
def partAfterFirst (sep : Char) (l : List Char) : List Char :=
  if sep ∈ l then (l.dropWhile (fun c => c ≠ sep)).tail else []

/-- Python `str.replace("%20", " ")`: left-to-right, non-overlapping. -/
def replacePct20 : List Char → List Char
  | '%' :: '2' :: '0' :: t => ' ' :: replacePct20 t
  | c :: t => c :: replacePct20 t
  | [] => []

/-! ### UTF-8 encoding and decoding

`urllib.parse.unquote` decodes percent-escaped bytes as UTF-8 with
`errors="replace"`, and the server encodes response headers as UTF-8.
The decoder below follows CPython's UTF-8 codec with the `replace`
handler: each maximal subpart of an ill-formed sequence becomes one
U+FFFD replacement character. -/

/-- UTF-8 encoding of a single scalar value (every Lean `Char` is one). -/
def utf8EncodeChar (c : Char) : List Nat :=
  if c.toNat < 0x80 then [c.toNat]
  else if c.toNat < 0x800 then [0xC0 + c.toNat / 0x40, 0x80 + c.toNat % 0x40]
  else if c.toNat < 0x10000 then
    [0xE0 + c.toNat / 0x1000, 0x80 + (c.toNat / 0x40) % 0x40, 0x80 + c.toNat % 0x40]
  else
    [0xF0 + c.toNat / 0x40000, 0x80 + (c.toNat / 0x1000) % 0x40,
     0x80 + (c.toNat / 0x40) % 0x40, 0x80 + c.toNat % 0x40]

/-- Python `str.encode("utf-8")`. -/
def utf8Encode : List Char → List Nat
  | [] => []
  | c :: t => utf8EncodeChar c ++ utf8Encode t

/-- CPython `bytes.decode("utf-8", errors="replace")`: well-formed
sequences decode to their scalar value; the maximal subpart of an
ill-formed sequence becomes one U+FFFD. -/
def utf8DecodeReplace : List Nat → List Char
  | [] => []
  | b :: t =>
    if b < 0x80 then Char.ofNat b :: utf8DecodeReplace t
    else if 0xC2 ≤ b ∧ b ≤ 0xDF then
      match t with
      | [] => [Char.ofNat 0xFFFD]
      | b1 :: t1 =>
        if 0x80 ≤ b1 ∧ b1 ≤ 0xBF then
          Char.ofNat ((b - 0xC0) * 0x40 + (b1 - 0x80)) :: utf8DecodeReplace t1
        else Char.ofNat 0xFFFD :: utf8DecodeReplace (b1 :: t1)
    else if 0xE0 ≤ b ∧ b ≤ 0xEF then
      match t with
      | [] => [Char.ofNat 0xFFFD]
      | b1 :: t1 =>
        if (if b = 0xE0 then 0xA0 else 0x80) ≤ b1 ∧ b1 ≤ (if b = 0xED then 0x9F else 0xBF) then
          match t1 with
          | [] => [Char.ofNat 0xFFFD]
          | b2 :: t2 =>
            if 0x80 ≤ b2 ∧ b2 ≤ 0xBF then
              Char.ofNat ((b - 0xE0) * 0x1000 + (b1 - 0x80) * 0x40 + (b2 - 0x80)) :: utf8DecodeReplace t2
            else Char.ofNat 0xFFFD :: utf8DecodeReplace (b2 :: t2)
        else Char.ofNat 0xFFFD :: utf8DecodeReplace (b1 :: t1)
    else if 0xF0 ≤ b ∧ b ≤ 0xF4 then
      match t with
      | [] => [Char.ofNat 0xFFFD]
      | b1 :: t1 =>
        if (if b = 0xF0 then 0x90 else 0x80) ≤ b1 ∧ b1 ≤ (if b = 0xF4 then 0x8F else 0xBF) then
          match t1 with
          | [] => [Char.ofNat 0xFFFD]
          | b2 :: t2 =>
            if 0x80 ≤ b2 ∧ b2 ≤ 0xBF then
              match t2 with
              | [] => [Char.ofNat 0xFFFD]
              | b3 :: t3 =>
                if 0x80 ≤ b3 ∧ b3 ≤ 0xBF then
                  Char.ofNat ((b - 0xF0) * 0x40000 + (b1 - 0x80) * 0x1000 + (b2 - 0x80) * 0x40 + (b3 - 0x80)) :: utf8DecodeReplace t3
                else Char.ofNat 0xFFFD :: utf8DecodeReplace (b3 :: t3)
            else Char.ofNat 0xFFFD :: utf8DecodeReplace (b2 :: t2)
        else Char.ofNat 0xFFFD :: utf8DecodeReplace (b1 :: t1)
    else Char.ofNat 0xFFFD :: utf8DecodeReplace t

/-! ### urllib.parse.unquote -/

/-- Value of a hexadecimal digit character, as accepted by
`urllib.parse`'s `_hextobyte` table (0-9, A-F, a-f). -/
def hexDigitVal (c : Char) : Option Nat :=
  if '0' ≤ c ∧ c ≤ '9' then some (c.toNat - 48)
  else if 'A' ≤ c ∧ c ≤ 'F' then some (c.toNat - 55)
  else if 'a' ≤ c ∧ c ≤ 'f' then some (c.toNat - 87)
  else none

/-- Python `str.split("%")` on a character list. -/
def splitOnPct : List Char → List (List Char)
  | [] => [[]]
  | c :: t =>
    if c = '%' then [] :: splitOnPct t
    else
      match splitOnPct t with
      | h :: r => (c :: h) :: r
      | [] => [[c]]

/-- Python `urllib.parse.unquote_to_bytes` on an ASCII-only string: split on `%`;
each later piece contributes the byte of its first two hex digits, or a
literal `%` plus the piece when they are not two hex digits. -/
def unquoteToBytes (s : List Char) : List Nat :=
  match splitOnPct s with
  | [] => []
  | b0 :: rest =>
    b0.map Char.toNat ++ rest.flatMap fun b =>
      match b with
      | h1 :: h2 :: t =>
        match hexDigitVal h1, hexDigitVal h2 with
        | some x, some y => (16 * x + y) :: t.map Char.toNat
        | _, _ => 37 :: b.map Char.toNat
      | _ => 37 :: b.map Char.toNat

/-- Core of `urllib.parse.unquote`: non-ASCII characters pass through
verbatim; each maximal ASCII run is percent-decoded to bytes and those
bytes decoded as UTF-8 with the `replace` handler. -/
def unquoteCore : List Char → List Char
  | [] => []
  | c :: t =>
    if c.toNat < 0x80 then
      utf8DecodeReplace (unquoteToBytes (c :: t.takeWhile (fun d => d.toNat < 0x80))) ++
        unquoteCore (t.dropWhile (fun d => d.toNat < 0x80))
    else c :: unquoteCore t
termination_by l => l.length
decreasing_by
  all_goals
    have h1 : (List.dropWhile (fun d => d.toNat < 0x80) t).length ≤ t.length :=
      (List.dropWhile_suffix _).length_le
    simp only [List.length_cons]
    omega

/-- Python `urllib.parse.unquote(string)` with the default UTF-8/`replace`
arguments; a string with no `%` is returned unchanged. -/
def unquote (s : List Char) : List Char :=
  if '%' ∈ s then unquoteCore s else s

/-! ### posixpath primitives

`check_safe_url` uses `os.path.abspath` and `os.path.commonpath`; both are
pure string functions (the current working directory that `abspath` reads
via `os.getcwd()` is passed explicitly as `cwd`). -/

/-- Python `str.split("/")`. -/
def splitSlash : List Char → List (List Char)
  | [] => [[]]
  | c :: t =>
    if c = '/' then [] :: splitSlash t
    else
      match splitSlash t with
      | h :: r => (c :: h) :: r
      | [] => [[c]]

/-- Python `"/".join(pieces)`. -/
def joinSlash : List (List Char) → List Char
  | [] => []
  | [a] => a
  | a :: b :: r => a ++ '/' :: joinSlash (b :: r)

/-- Python `posixpath.join(a, b)` for two pieces: an absolute second piece wins;
otherwise concatenate, inserting `/` unless `a` is empty or ends in `/`. -/
def osJoin (a b : List Char) : List Char :=
  if b.head? = some '/' then b
  else if a = [] ∨ a.getLast? = some '/' then a ++ b
  else a ++ '/' :: b

/-- One step of `posixpath.normpath`'s component loop: skip empty and `.`
components; append any component other than `..`; also append `..` when the
path is relative with nothing yet accumulated or the last kept component is
itself `..`; otherwise pop the last kept component. -/
def npStep (slashes : Nat) (acc : List (List Char)) (comp : List Char) : List (List Char) :=
  if comp = [] ∨ comp = ['.'] then acc
  else if comp ≠ ['.', '.'] ∨ (slashes = 0 ∧ acc = []) ∨ acc.getLast? = some ['.', '.'] then
    acc ++ [comp]
  else acc.dropLast

/-- Python `posixpath.normpath`: collapse `//` and `.`, resolve `..` against kept
components, keep exactly two leading slashes only when the path starts with
exactly two. -/
def normpath (p : List Char) : List Char :=
  if p = [] then ['.']
  else
    let slashes : Nat :=
      if p.head? = some '/' then
        if List.isPrefixOf ['/', '/'] p ∧ ¬ List.isPrefixOf ['/', '/', '/'] p then 2 else 1
      else 0
    let comps := (splitSlash p).foldl (npStep slashes) []
    let out := List.replicate slashes '/' ++ joinSlash comps
    if out = [] then ['.'] else out

/-- Python `posixpath.abspath(p)` with the process working directory `cwd` made
explicit: join a relative path onto `cwd`, then normalize. -/
def abspath (cwd p : List Char) : List Char :=
  if p.head? = some '/' then normpath p else normpath (osJoin cwd p)

/-- The non-empty, non-`.` slash-separated components of a path, as
`posixpath.commonpath` compares them. -/
def pcomps (l : List Char) : List (List Char) :=
  (splitSlash l).filter (fun c => !(c == [] || c == ['.']))

/-- Longest common prefix of two component lists. -/
def lcp : List (List Char) → List (List Char) → List (List Char)
  | a :: as, b :: bs => if a == b then a :: lcp as bs else []
  | _, _ => []

/-- Python `posixpath.commonpath([a, b])`: `none` models the `ValueError` raised on
mixing an absolute and a relative path; otherwise the common component
prefix rendered with a single leading `/` when absolute. -/
def commonpath2 (a b : List Char) : Option (List Char) :=
  if (a.head? == some '/') = (b.head? == some '/') then
    some ((if a.head? == some '/' then ['/'] else []) ++ joinSlash (lcp (pcomps a) (pcomps b)))
  else none

/-- Function `check_safe_url(safe_dir, target_url)` from `htttpd.py` (lines 69-76):
`safe_dir == os.path.commonpath([safe_dir, os.path.abspath(target_url)])`.
`cwd` models the working directory `os.path.abspath` reads; `none` models
an escaping `ValueError` from `commonpath`. -/
def check_safe_url (safe_dir target_url cwd : List Char) : Option Bool :=
  (commonpath2 safe_dir (abspath cwd target_url)).map (fun c => safe_dir == c)

/-! ### pathlib.PurePosixPath -/

/-- A `pathlib.PurePosixPath` value: the number of leading slashes kept
(0, 1 or 2) and the parts, with empty and `.` parts dropped at parse time
(`..` is kept). -/
structure PyPath where
  slashes : Nat
  parts : List (List Char)
deriving DecidableEq, Repr

/-- Python `pathlib.Path(s)` (string parse). -/
def PyPath.parse (s : List Char) : PyPath :=
  { slashes :=
      if s.head? = some '/' then
        if List.isPrefixOf ['/', '/'] s ∧ ¬ List.isPrefixOf ['/', '/', '/'] s then 2 else 1
      else 0
    parts := (splitSlash s).filter (fun c => !(c == [] || c == ['.'])) }

/-- Python `str(path)`: the empty relative path renders as `.`. -/
def PyPath.toStr (p : PyPath) : List Char :=
  if p.slashes = 0 ∧ p.parts = [] then ['.']
  else List.replicate p.slashes '/' ++ joinSlash p.parts

/-- Python `path / name` for a plain relative file name (as in `path /= "index.html"`). -/
def PyPath.joinName (p : PyPath) (name : List Char) : PyPath :=
  { slashes := p.slashes, parts := p.parts ++ [name] }

/-- Python `path.suffix`: the extension of the final component, from its last dot,
empty when the dot is absent, leading or trailing. -/
def PyPath.ext (p : PyPath) : List Char :=
  match p.parts.getLast? with
  | none => []
  | some name =>
    if '.' ∈ name then
      let k := (name.reverse.takeWhile (fun c => c ≠ '.')).length
      let i := name.length - 1 - k
      if 0 < i ∧ i < name.length - 1 then name.drop i else []
    else []

/-! ### httpcls.py -/

/-- The `HTTPStatus` enumeration of `httpcls.py`. -/
inductive HTTPStatus where
  | OK
  | BAD_REQUEST
  | FORBIDDEN
  | NOT_FOUND
  | METHOD_NOT_ALLOWED
  | REQUEST_TIMEOUT
deriving DecidableEq, Repr

/-- The numeric code of each `HTTPStatus` member. -/
def statusCode : HTTPStatus → Nat
  | .OK => 200
  | .BAD_REQUEST => 400
  | .FORBIDDEN => 403
  | .NOT_FOUND => 404
  | .METHOD_NOT_ALLOWED => 405
  | .REQUEST_TIMEOUT => 408

/-- The reason phrase of each `HTTPStatus` member. -/
def statusMsg : HTTPStatus → List Char
  | .OK => "OK".data
  | .BAD_REQUEST => "Bad Request".data
  | .FORBIDDEN => "Forbidden".data
  | .NOT_FOUND => "Not Found".data
  | .METHOD_NOT_ALLOWED => "Method Not Allowed".data
  | .REQUEST_TIMEOUT => "Request Timeout".data

/-- Decimal rendering helper (fuel-structural so the kernel can evaluate
it); produces the digits of `n` followed by `acc`. -/
def natToDecAux : Nat → Nat → List Char → List Char
  | 0, _, acc => acc
  | fuel + 1, n, acc =>
    if n < 10 then Char.ofNat (48 + n % 10) :: acc
    else natToDecAux fuel (n / 10) (Char.ofNat (48 + n % 10) :: acc)

/-- Python `str(n)` / `f"{n}"` for a non-negative integer. -/
def natToDec (n : Nat) : List Char := natToDecAux (n + 1) n []

/-- Python `str(status)` rendering: the code, a space, the message. -/
def statusStr (s : HTTPStatus) : List Char :=
  natToDec (statusCode s) ++ ' ' :: statusMsg s

/-- The `HTTPRequest` named tuple. -/
structure HTTPRequest where
  method : List Char
  target : List Char
deriving DecidableEq, Repr

/-- The `HTTPResponse` named tuple; the body is raw bytes and
`content_length` a non-negative integer, as the server constructs them. -/
structure HTTPResponse where
  status : HTTPStatus
  body : List Nat
  content_type : List Char
  content_length : Nat
deriving DecidableEq, Repr

/-! ### htttpd.py: configuration tables -/

/-- The module global `HTTP_METHODS_ALLOWED = ["GET", "HEAD"]`. -/
def HTTP_METHODS_ALLOWED : List (List Char) := ["GET".data, "HEAD".data]

/-- The module global `CONTENT_TYPES_ALLOWED`: the extension-to-MIME table. -/
def CONTENT_TYPES_ALLOWED : List (List Char × List Char) :=
  [(".html".data, "text/html".data),
   (".js".data, "application/javascript".data),
   (".css".data, "text/css".data),
   (".jpeg".data, "image/jpeg".data),
   (".jpg".data, "image/jpeg".data),
   (".png".data, "image/png".data),
   (".gif".data, "image/gif".data),
   (".swf".data, "application/x-shockwave-flash".data),
   (".txt".data, "text/plain".data)]

/-- Dictionary lookup `CONTENT_TYPES_ALLOWED[ext]`; `none` models the
`KeyError` raised for a missing key. -/
def contentTypeFor (ext : List Char) : Option (List Char) :=
  (CONTENT_TYPES_ALLOWED.find? (fun e => e.1 == ext)).map (fun e => e.2)

/-! ### htttpd.py: the filesystem interface

The filesystem is queried, never modified: `is_dir`/`is_file` tests and
whole-file reads.  A regular file's `stat().st_size` is the length of its
byte content, and `read_bytes()` returns exactly that content. -/

/-- The filesystem state: which path strings name directories, and the
byte content of each path string that names a regular file. -/
structure FS where
  isDir : List Char → Bool
  file : List Char → Option (List Nat)

/-! ### htttpd.py: frame reading, parsing, responding -/

/-- Python `pattern in chunk` for byte strings: containment of a
contiguous subsequence. -/
def containsSeq (pat : List Nat) : List Nat → Bool
  | [] => pat.isEmpty
  | a :: t => pat.isPrefixOf (a :: t) || containsSeq pat t

/-- Function `read_request(conn)` (lines 52-66): the connection's successive
`recv(1024)` results are the given chunk list (each of size at most 1024,
with an empty chunk meaning the peer closed).  Each chunk is appended to
the buffer; the loop stops when `b"\r\n\r\n"` occurs in the chunk just
received or that chunk is empty.  `none` models blocking forever on a
stream that ends without either condition. -/
def read_request : List (List Nat) → Option (List Nat)
  | [] => none
  | c :: rest =>
    if containsSeq [13, 10, 13, 10] c || c.isEmpty then some c
    else (read_request rest).map (fun r => c ++ r)

/-- Modelled from the claim's words (C7), for comparison with
`read_request`: stop as soon as `\r\n\r\n` occurs anywhere in the
accumulated buffer, or a read returns zero bytes. -/
def read_request_claimed (acc : List Nat) : List (List Nat) → Option (List Nat)
  | [] => none
  | c :: rest =>
    if containsSeq [13, 10, 13, 10] (acc ++ c) || c.isEmpty then some (acc ++ c)
    else read_request_claimed (acc ++ c) rest

/-- Function `parse_request(conn, data)` (lines 79-95): decode as ISO-8859-1,
strip, split on CRLF, split the first line on whitespace into exactly
`method, target, version`, percent-decode the target.  `none` models the
`ValueError` raised when the unpacking into three names fails. -/
def parse_request (data : List Nat) : Option HTTPRequest :=
  match pySplitWS ((splitCRLFChars (pyStrip (decodeLatin1 data))).headD []) with
  | [m, t, _v] => some { method := m, target := unquote t }
  | _ => none

/-- The observable outcome of handling one connection: the responses
written to the socket (in structured form), how many times the socket was
closed, and whether an exception escaped the handler. -/
structure ConnResult where
  responses : List HTTPResponse
  closes : Nat
  error : Bool
deriving DecidableEq, Repr

/-- Function `send_error(conn, status)` (lines 98-114): sends one `text/plain`
response whose body is `str(status)` UTF-8 encoded, then closes the
connection. -/
def errResult (s : HTTPStatus) : ConnResult :=
  { responses := [{ status := s
                    body := utf8Encode (statusStr s)
                    content_type := "text/plain".data
                    content_length := (utf8Encode (statusStr s)).length }]
    closes := 1
    error := false }

/-- The stripped target of lines 174: everything after the first `/`,
then everything before the first `?`. -/
def strippedTarget (target : List Char) : List Char :=
  (partAfterFirst '/' target).takeWhile (fun c => c ≠ '?')

/-- The candidate path of lines 176-178: join the document root with the
stripped target, parse, replace `%20` with spaces in the rendered string,
and parse again. -/
def candidatePath (document_root target : List Char) : PyPath :=
  PyPath.parse (replacePct20 (PyPath.toStr (PyPath.parse (osJoin document_root (strippedTarget target)))))

/-- The path whose `is_file()` is finally tested (lines 180-189): the
candidate, with `index.html` appended when the candidate is a directory. -/
def finalCandidate (fs : FS) (document_root target : List Char) : PyPath :=
  let c := candidatePath document_root target
  if fs.isDir c.toStr then c.joinName "index.html".data else c

/-- Lines 189-208: test `is_file`, `stat` the size, read the body unless
the method is HEAD, look the extension up in `CONTENT_TYPES_ALLOWED`
(a missing extension raises `KeyError`: no response, no close), send the
response and close. -/
def respondFile (fs : FS) (method : List Char) (p : PyPath) : ConnResult :=
  match fs.file p.toStr with
  | none => errResult HTTPStatus.NOT_FOUND
  | some bs =>
    match contentTypeFor p.ext with
    | none => { responses := [], closes := 0, error := true }
    | some ct =>
      { responses := [{ status := HTTPStatus.OK
                        body := if method = "HEAD".data then [] else bs
                        content_type := ct
                        content_length := bs.length }]
        closes := 1
        error := false }

/-- Function `handle_connection(conn, address, document_root)` (lines 147-211)
applied to an already-received buffer `data`.  `safe_dir` is the value of
the module global `SAFE_DIR` and `cwd` the working directory read by
`os.path.abspath`.  Stages: parse (failure → 400), method check
(→ 405), `check_safe_url` (→ 403, or an escaping `ValueError`), candidate
resolution, directory substitution, trailing-slash check (→ 404), file
response. -/
def handle_connection (fs : FS) (document_root cwd safe_dir : List Char) (data : List Nat) : ConnResult :=
  match parse_request data with
  | none => errResult HTTPStatus.BAD_REQUEST
  | some req =>
    if HTTP_METHODS_ALLOWED.contains req.method then
      match check_safe_url safe_dir req.target cwd with
      | none => { responses := [], closes := 0, error := true }
      | some false => errResult HTTPStatus.FORBIDDEN
      | some true =>
        let c := candidatePath document_root req.target
        if fs.isDir c.toStr then respondFile fs req.method (c.joinName "index.html".data)
        else if (strippedTarget req.target).getLast? = some '/' then errResult HTTPStatus.NOT_FOUND
        else respondFile fs req.method c
    else errResult HTTPStatus.METHOD_NOT_ALLOWED

/-- The statuses of the responses a connection received. -/
def statuses (r : ConnResult) : List HTTPStatus := r.responses.map (fun x => x.status)

/-! ### htttpd.py: response serialization (send_response, lines 117-141)

`send_response` joins the status line and five headers with CRLF, encodes
as UTF-8, and appends `\r\n\r\n` plus the raw body.  The `Date` header
value `now` is a parameter (the code formats the current time). -/

/-- The header block of `send_response` as a string (the `"\r\n".join`). -/
def headChars (r : HTTPResponse) (now : List Char) : List Char :=
  "HTTP/1.1 ".data ++ statusStr r.status ++
  '\r' :: '\n' :: "Date: ".data ++ now ++
  '\r' :: '\n' :: "Content-Type: ".data ++ r.content_type ++
  '\r' :: '\n' :: "Content-Length: ".data ++ natToDec r.content_length ++
  '\r' :: '\n' :: "Server: Otus-Python-HTTP-Server".data ++
  '\r' :: '\n' :: "Connection: close".data

/-- The exact bytes `send_response` writes: UTF-8 header block, blank
line, raw body. -/
def serializeResponse (r : HTTPResponse) (now : List Char) : List Nat :=
  utf8Encode (headChars r now) ++ 13 :: 10 :: 13 :: 10 :: r.body

/-! ### Re-parsing a serialized response (the round-trip claim)

The reverse direction is not part of the server; it formalizes the
spec's "re-parsing the header block": split the bytes into CRLF-separated
lines, keep the lines before the first empty one, read the status code
after `HTTP/1.1 `, and read the `Content-Type` and `Content-Length`
header values. -/

/-- Split a byte list at every CRLF. -/
def splitCRLFBytes : List Nat → List (List Nat)
  | [] => [[]]
  | [b] => [[b]]
  | b1 :: b2 :: t =>
    if b1 = 13 ∧ b2 = 10 then [] :: splitCRLFBytes t
    else
      match splitCRLFBytes (b2 :: t) with
      | h :: r => (b1 :: h) :: r
      | [] => [[b1]]

/-- The header block: the CRLF-separated lines before the first empty line. -/
def headerLines (bs : List Nat) : List (List Nat) :=
  (splitCRLFBytes bs).takeWhile (fun l => !l.isEmpty)

/-- Drop a known leading byte sequence, or fail. -/
def dropStart (pfx l : List Nat) : Option (List Nat) :=
  if pfx.isPrefixOf l then some (l.drop pfx.length) else none

/-- The value of the first header line starting with the given name-colon
prefix. -/
def findHeaderValue (pfx : List Nat) : List (List Nat) → Option (List Nat)
  | [] => none
  | l :: ls =>
    match dropStart pfx l with
    | some v => some v
    | none => findHeaderValue pfx ls

/-- A decimal digit byte. -/
def isDigitByte (b : Nat) : Bool := 48 ≤ b && b ≤ 57

/-- Read a decimal number from digit bytes. -/
def decFoldBytes (l : List Nat) : Nat := l.foldl (fun a b => a * 10 + (b - 48)) 0

/-- Re-parse the header block of serialized response bytes: the status
code, the Content-Type value (UTF-8 decoded) and the Content-Length
value. -/
def parseHeaderBlock (bs : List Nat) : Option (Nat × List Char × Nat) :=
  match headerLines bs with
  | [] => none
  | sl :: rest =>
    match dropStart (utf8Encode "HTTP/1.1 ".data) sl with
    | none => none
    | some codeBytes =>
      match findHeaderValue (utf8Encode "Content-Type: ".data) rest,
            findHeaderValue (utf8Encode "Content-Length: ".data) rest with
      | some ctB, some clB =>
        some (decFoldBytes (codeBytes.takeWhile isDigitByte), utf8DecodeReplace ctB, decFoldBytes clB)
      | _, _ => none

/-- The bytes a client sends for an ASCII request string (the inverse of
the ISO-8859-1 decode on this range). -/
def strBytes (s : String) : List Nat := s.data.map Char.toNat

/-! ### Spec-side characterizations used in theorem statements -/

/-- The spec's "safe-directory boundary is a prefix component of the
canonical path": the safe directory's components are a prefix of the
path's components. -/
def hasPrefixComponent (safe p : List Char) : Bool :=
  (pcomps safe).isPrefixOf (pcomps p)

/-- A chunk on which `read_request`'s loop stops: the terminator occurs in
the chunk, or the chunk is empty. -/
def stopChunk (c : List Nat) : Bool := containsSeq [13, 10, 13, 10] c || c.isEmpty

/-- Flatten a chunk list into one byte buffer. -/
def concatAll : List (List Nat) → List Nat
  | [] => []
  | c :: r => c ++ concatAll r

/-- The condition under which `handle_connection` raises an uncaught
exception: the request parses, the method is allowed, the traversal check
passes (an absolute-vs-relative mix in `commonpath` would also raise), the
resolution does not take the trailing-slash 404 branch, the final
candidate is an existing file, and its extension is missing from
`CONTENT_TYPES_ALLOWED`. -/
def handlerCrashes (fs : FS) (document_root cwd safe_dir : List Char) (data : List Nat) : Bool :=
  match parse_request data with
  | none => false
  | some req =>
    if HTTP_METHODS_ALLOWED.contains req.method then
      match check_safe_url safe_dir req.target cwd with
      | none => true
      | some false => false
      | some true =>
        let c := candidatePath document_root req.target
        if !fs.isDir c.toStr && (strippedTarget req.target).getLast? == some '/' then false
        else
          (fs.file (finalCandidate fs document_root req.target).toStr).isSome &&
            (contentTypeFor (finalCandidate fs document_root req.target).ext).isNone
    else false

/-! ### Concrete data for witnesses and counterexamples -/

/-- A filesystem with one HTML file and one file of unlisted extension
under `/srv/httptest`. -/
def fsWit : FS :=
  { isDir := fun p => p == "/srv".data || p == "/srv/httptest".data
    file := fun p =>
      if p == "/srv/httptest/index.html".data then some (strBytes "hello world")
      else if p == "/srv/httptest/data.xyz".data then some [1, 2, 3]
      else none }

/-- A filesystem with nothing in it. -/
def fsEmpty : FS := { isDir := fun _ => false, file := fun _ => none }

/-- The filesystem of the spec's success scenario: document root `/srv`
holding an 11-byte `index.html`. -/
def fsC8 : FS :=
  { isDir := fun p => p == "/srv".data
    file := fun p => if p == "/srv/index.html".data then some (strBytes "hello world") else none }

/-! ## Theorems -/

/-- C2: for every successfully parsed request whose method is not exactly
GET or HEAD (case-sensitive), the response is exactly the 405 Method Not
Allowed error response, regardless of the request target. -/
theorem c2_method_not_allowed (fs : FS) (document_root cwd safe_dir : List Char)
    (data : List Nat) (m t : List Char)
    (hp : parse_request data = some { method := m, target := t })
    (hg : m ≠ "GET".data) (hh : m ≠ "HEAD".data) :
    handle_connection fs document_root cwd safe_dir data = errResult HTTPStatus.METHOD_NOT_ALLOWED := by
  unfold handle_connection
  rw [hp]
  have hm : m ∉ HTTP_METHODS_ALLOWED := by
    simp [HTTP_METHODS_ALLOWED]
    exact ⟨hg, hh⟩
  simp [hm]

/-- C2 witness: `POST / HTTP/1.1` parses with method POST, which is neither
GET nor HEAD, and the handler answers 405. -/
theorem c2_method_not_allowed_witness :
    parse_request (strBytes "POST / HTTP/1.1\r\n\r\n") = some { method := "POST".data, target := "/".data } ∧
    handle_connection fsEmpty "/srv".data "/".data "/httptest".data (strBytes "POST / HTTP/1.1\r\n\r\n") = errResult HTTPStatus.METHOD_NOT_ALLOWED :=
  ⟨by decide, c2_method_not_allowed fsEmpty "/srv".data "/".data "/httptest".data _ "POST".data "/".data (by decide) (by decide) (by decide)⟩

/-- C8 counterexample: with document root `/srv`, safe directory `/srv`
and working directory `/`, the request `GET /index.html` is rejected with
403 even though `/srv/index.html` is an existing 11-byte file: the
traversal check compares `/srv` with `commonpath(["/srv", "/index.html"])
= "/"`. -/
theorem c8_counterexample :
    fsC8.file "/srv/index.html".data = some (strBytes "hello world") ∧
    (strBytes "hello world").length = 11 ∧
    handle_connection fsC8 "/srv".data "/".data "/srv".data (strBytes "GET /index.html HTTP/1.1\r\n\r\n") =
      errResult HTTPStatus.FORBIDDEN := by
  decide

/-- C8 amended: with document root `/srv` and safe directory `/`, the
request `GET /index.html`, where `/srv/index.html` is an existing 11-byte
file, yields status 200 with Content-Length 11 and the full 11-byte body. -/
theorem c8_scenario :
    handle_connection fsC8 "/srv".data "/".data "/".data (strBytes "GET /index.html HTTP/1.1\r\n\r\n") =
      { responses := [{ status := HTTPStatus.OK
                        body := strBytes "hello world"
                        content_type := "text/html".data
                        content_length := 11 }]
        closes := 1
        error := false } ∧
    (strBytes "hello world").length = 11 := by
  decide

/-- C3 counterexample: the buffer `GET /x HTTP/1.1` contains no
CRLF-delimited line (splitting it at CRLF leaves it whole), yet the parser
succeeds rather than failing as the claim requires. -/
theorem c3_counterexample :
    parse_request (strBytes "GET /x HTTP/1.1") = some { method := "GET".data, target := "/x".data } ∧
    splitCRLFBytes (strBytes "GET /x HTTP/1.1") = [strBytes "GET /x HTTP/1.1"] := by
  decide

/-- C3 amended: the parser fails exactly when the first CRLF-separated
piece of the whitespace-stripped ISO-8859-1 decode of the buffer does not
split into exactly three whitespace-separated tokens (the empty buffer
fails this way); and the buffer `"garbage\r\n\r\n"` always draws the 400
Bad Request response. -/
theorem c3_parse_failure :
    (∀ data : List Nat,
      parse_request data = none ↔
        (pySplitWS ((splitCRLFChars (pyStrip (decodeLatin1 data))).headD [])).length ≠ 3) ∧
    (∀ (fs : FS) (document_root cwd safe_dir : List Char),
      handle_connection fs document_root cwd safe_dir (strBytes "garbage\r\n\r\n") =
        errResult HTTPStatus.BAD_REQUEST) := by
  constructor
  · intro data
    unfold parse_request
    rcases h : pySplitWS ((splitCRLFChars (pyStrip (decodeLatin1 data))).headD []) with
      _ | ⟨a, _ | ⟨b, _ | ⟨c, _ | ⟨d, r⟩⟩⟩⟩ <;> simp
  · intro fs document_root cwd safe_dir
    have hp : parse_request (strBytes "garbage\r\n\r\n") = none := by decide
    unfold handle_connection
    rw [hp]

/-- C7 counterexample: on the chunk stream `[CRLF, CRLF, "A", close]` the
terminator appears in the accumulated buffer after two chunks, yet the
reader keeps reading (it only tests each chunk in isolation): the code
returns the buffer with the extra byte, the claimed behavior would return
without it. -/
theorem c7_counterexample :
    read_request [[13, 10], [13, 10], [65], []] = some [13, 10, 13, 10, 65] ∧
    read_request_claimed [] [[13, 10], [13, 10], [65], []] = some [13, 10, 13, 10] ∧
    containsSeq [13, 10, 13, 10] ([13, 10] ++ [13, 10]) = true := by
  decide

/-- C7 amended: the reader accumulates the chunks and returns the buffer
as soon as the terminator `\r\n\r\n` occurs within a single received chunk
or a chunk is empty (a closed peer); the returned buffer may be empty. -/
theorem c7_read_request :
    (∀ (chunks : List (List Nat)) (buf : List Nat),
      read_request chunks = some buf ↔
        ∃ pre c post, chunks = pre ++ c :: post ∧ (∀ d ∈ pre, stopChunk d = false) ∧
          stopChunk c = true ∧ buf = concatAll pre ++ c) ∧
    read_request [[]] = some [] := by
  constructor
  · intro chunks
    induction chunks with
    | nil =>
      intro buf
      constructor
      · intro h
        simp [read_request] at h
      · rintro ⟨pre, c, post, h, -, -, -⟩
        rcases pre with - | ⟨d, pre⟩ <;> simp at h
    | cons c0 rest ih =>
      intro buf
      have hdef : (containsSeq [13, 10, 13, 10] c0 || c0.isEmpty) = stopChunk c0 := rfl
      by_cases hs : stopChunk c0 = true
      · constructor
        · intro h
          rw [read_request, hdef, hs] at h
          simp at h
          exact ⟨[], c0, rest, rfl, by simp, hs, by simp [concatAll, h]⟩
        · rintro ⟨pre, c, post, heq, hpre, hc, hbuf⟩
          rcases pre with - | ⟨d, pre⟩
          · simp at heq
            rw [read_request, hdef, hs]
            simp [hbuf, concatAll, heq.1]
          · simp at heq
            have hdf := hpre d (by simp)
            rw [heq.1, hdf] at hs
            simp at hs
      · constructor
        · intro h
          rw [read_request, hdef] at h
          simp [hs] at h
          rcases h with ⟨b2, hb2, hbuf⟩
          rcases (ih b2).mp hb2 with ⟨pre, c, post, heq, hpre, hc, hb⟩
          refine ⟨c0 :: pre, c, post, by simp [heq], ?_, hc, ?_⟩
          · intro d hd
            simp at hd
            rcases hd with rfl | hd
            · simpa using hs
            · exact hpre d hd
          · simp [concatAll, ← hbuf, hb]
        · rintro ⟨pre, c, post, heq, hpre, hc, hbuf⟩
          rcases pre with - | ⟨d, pre⟩
          · simp at heq
            rw [heq.1] at hs
            exact absurd hc hs
          · simp at heq
            rw [read_request, hdef]
            simp [hs]
            refine ⟨concatAll pre ++ c, (ih _).mpr ⟨pre, c, post, heq.2, ?_, hc, rfl⟩, ?_⟩
            · intro d2 hd2
              exact hpre d2 (by simp [hd2])
            · rw [hbuf, heq.1]
              simp [concatAll]
  · decide

/-- C5: once a request has parsed, passed the method check and the
traversal check: (i) when the joined candidate path names an existing
directory, `index.html` is appended and the existence check runs on that
extended path; (ii) when the stripped (pre-substitution) target ends in
`/` and the candidate is no existing directory, the response is exactly
404; (iii) when the path finally tested does not name a regular file, the
response status is exactly 404. -/
theorem c5_resolution (fs : FS) (document_root cwd safe_dir : List Char)
    (data : List Nat) (m t : List Char)
    (hp : parse_request data = some { method := m, target := t })
    (hm : m ∈ HTTP_METHODS_ALLOWED)
    (hc : check_safe_url safe_dir t cwd = some true) :
    (fs.isDir (candidatePath document_root t).toStr = true →
      handle_connection fs document_root cwd safe_dir data =
        respondFile fs m ((candidatePath document_root t).joinName "index.html".data)) ∧
    ((strippedTarget t).getLast? = some '/' → fs.isDir (candidatePath document_root t).toStr = false →
      handle_connection fs document_root cwd safe_dir data = errResult HTTPStatus.NOT_FOUND) ∧
    (fs.file (finalCandidate fs document_root t).toStr = none →
      statuses (handle_connection fs document_root cwd safe_dir data) = [HTTPStatus.NOT_FOUND]) := by
  refine ⟨fun hd => ?_, fun hsl hd => ?_, fun hf => ?_⟩
  · unfold handle_connection
    rw [hp]
    simp [hm, hc, hd]
  · unfold handle_connection
    rw [hp]
    simp [hm, hc, hd, hsl]
  · unfold handle_connection
    rw [hp]
    unfold finalCandidate at hf
    by_cases hd : fs.isDir (candidatePath document_root t).toStr = true
    · rw [if_pos hd] at hf
      simp [hm, hc, hd, respondFile, hf, statuses, errResult]
    · rw [if_neg hd] at hf
      by_cases hsl : (strippedTarget t).getLast? = some '/'
      · simp [hm, hc, hd, hsl, statuses, errResult]
      · simp [hm, hc, hd, hsl, respondFile, hf, statuses, errResult]

/-- C5 witness: a GET for a missing file under the safe prefix, on an
empty filesystem, draws 404 (instantiating part (iii)). -/
theorem c5_resolution_witness :
    parse_request (strBytes "GET /httptest/missing.html HTTP/1.1\r\n\r\n") =
      some { method := "GET".data, target := "/httptest/missing.html".data } ∧
    "GET".data ∈ HTTP_METHODS_ALLOWED ∧
    check_safe_url "/httptest".data "/httptest/missing.html".data "/".data = some true ∧
    ((fsEmpty.isDir (candidatePath "/srv".data "/httptest/missing.html".data).toStr = true →
      handle_connection fsEmpty "/srv".data "/".data "/httptest".data (strBytes "GET /httptest/missing.html HTTP/1.1\r\n\r\n") =
        respondFile fsEmpty "GET".data ((candidatePath "/srv".data "/httptest/missing.html".data).joinName "index.html".data)) ∧
    ((strippedTarget "/httptest/missing.html".data).getLast? = some '/' →
      fsEmpty.isDir (candidatePath "/srv".data "/httptest/missing.html".data).toStr = false →
      handle_connection fsEmpty "/srv".data "/".data "/httptest".data (strBytes "GET /httptest/missing.html HTTP/1.1\r\n\r\n") =
        errResult HTTPStatus.NOT_FOUND) ∧
    (fsEmpty.file (finalCandidate fsEmpty "/srv".data "/httptest/missing.html".data).toStr = none →
      statuses (handle_connection fsEmpty "/srv".data "/".data "/httptest".data (strBytes "GET /httptest/missing.html HTTP/1.1\r\n\r\n")) =
        [HTTPStatus.NOT_FOUND])) :=
  ⟨by decide, by decide, by decide,
   c5_resolution fsEmpty "/srv".data "/".data "/httptest".data _ "GET".data "/httptest/missing.html".data
     (by decide) (by decide) (by decide)⟩

/-- C4: for a request that the Path Resolver takes all the way to an
existing regular file (traversal check passed, no trailing-slash 404, the
final candidate is a regular file, its extension is in the content-type
table): a GET answers with `content_length` equal to the file's exact byte
size and the file's exact bytes as body; a HEAD for the same target
answers with the identical `content_length` and an empty body. -/
theorem c4_get_head_body (fs : FS) (document_root cwd safe_dir : List Char)
    (dataG dataH : List Nat) (t : List Char) (bs : List Nat) (ct : List Char)
    (hpG : parse_request dataG = some { method := "GET".data, target := t })
    (hpH : parse_request dataH = some { method := "HEAD".data, target := t })
    (hc : check_safe_url safe_dir t cwd = some true)
    (hnsl : fs.isDir (candidatePath document_root t).toStr = true ∨
      (strippedTarget t).getLast? ≠ some '/')
    (hf : fs.file (finalCandidate fs document_root t).toStr = some bs)
    (hct : contentTypeFor (finalCandidate fs document_root t).ext = some ct) :
    handle_connection fs document_root cwd safe_dir dataG =
      { responses := [{ status := HTTPStatus.OK, body := bs, content_type := ct,
                        content_length := bs.length }]
        closes := 1, error := false } ∧
    handle_connection fs document_root cwd safe_dir dataH =
      { responses := [{ status := HTTPStatus.OK, body := [], content_type := ct,
                        content_length := bs.length }]
        closes := 1, error := false } := by
  have hgm : "GET".data ∈ HTTP_METHODS_ALLOWED := by decide
  have hhm : "HEAD".data ∈ HTTP_METHODS_ALLOWED := by decide
  unfold finalCandidate at hf hct
  constructor
  · unfold handle_connection
    rw [hpG]
    by_cases hd : fs.isDir (candidatePath document_root t).toStr = true
    · rw [if_pos hd] at hf hct
      simp [hgm, hc, hd, respondFile, hf, hct]
    · rw [if_neg hd] at hf hct
      rcases hnsl with hd2 | hnsl
      · exact absurd hd2 hd
      · simp [hgm, hc, hd, hnsl, respondFile, hf, hct]
  · unfold handle_connection
    rw [hpH]
    by_cases hd : fs.isDir (candidatePath document_root t).toStr = true
    · rw [if_pos hd] at hf hct
      simp [hhm, hc, hd, respondFile, hf, hct]
    · rw [if_neg hd] at hf hct
      rcases hnsl with hd2 | hnsl
      · exact absurd hd2 hd
      · simp [hhm, hc, hd, hnsl, respondFile, hf, hct]

/-- C4 witness: GET and HEAD for `/httptest/index.html` over a filesystem
where that file holds the 11 bytes `hello world`. -/
theorem c4_get_head_body_witness :
    parse_request (strBytes "GET /httptest/index.html HTTP/1.1\r\n\r\n") =
      some { method := "GET".data, target := "/httptest/index.html".data } ∧
    parse_request (strBytes "HEAD /httptest/index.html HTTP/1.1\r\n\r\n") =
      some { method := "HEAD".data, target := "/httptest/index.html".data } ∧
    check_safe_url "/httptest".data "/httptest/index.html".data "/".data = some true ∧
    fsWit.file (finalCandidate fsWit "/srv".data "/httptest/index.html".data).toStr =
      some (strBytes "hello world") ∧
    (handle_connection fsWit "/srv".data "/".data "/httptest".data
        (strBytes "GET /httptest/index.html HTTP/1.1\r\n\r\n") =
      { responses := [{ status := HTTPStatus.OK, body := strBytes "hello world",
                        content_type := "text/html".data,
                        content_length := (strBytes "hello world").length }]
        closes := 1, error := false } ∧
    handle_connection fsWit "/srv".data "/".data "/httptest".data
        (strBytes "HEAD /httptest/index.html HTTP/1.1\r\n\r\n") =
      { responses := [{ status := HTTPStatus.OK, body := [],
                        content_type := "text/html".data,
                        content_length := (strBytes "hello world").length }]
        closes := 1, error := false }) :=
  ⟨by decide, by decide, by decide, by decide,
   c4_get_head_body fsWit "/srv".data "/".data "/httptest".data _ _
     "/httptest/index.html".data (strBytes "hello world") "text/html".data
     (by decide) (by decide) (by decide) (by decide) (by decide) (by decide)⟩

/-- A file response never carries status 403: it is 200, 404, or no
response at all (content-type `KeyError`). -/
theorem respondFile_not_forbidden (fs : FS) (m : List Char) (p : PyPath) :
    statuses (respondFile fs m p) ≠ [HTTPStatus.FORBIDDEN] := by
  unfold respondFile statuses
  rcases fs.file p.toStr with - | bs
  · simp [errResult]
  · rcases contentTypeFor p.ext with - | ct <;> simp

/-- C10: for a successfully parsed GET or HEAD request, whether the
response is the 403 Forbidden rejection does not depend on the document
root or on the filesystem state: the traversal check canonicalizes the
raw target before the leading component is stripped and before the
document root is joined. -/
theorem c10_forbidden_independent (fs1 fs2 : FS) (root1 root2 cwd safe_dir : List Char)
    (data : List Nat) (m t : List Char)
    (hp : parse_request data = some { method := m, target := t })
    (hm : m ∈ HTTP_METHODS_ALLOWED) :
    (statuses (handle_connection fs1 root1 cwd safe_dir data) = [HTTPStatus.FORBIDDEN] ↔
     statuses (handle_connection fs2 root2 cwd safe_dir data) = [HTTPStatus.FORBIDDEN]) := by
  have key : ∀ (fs : FS) (root : List Char), check_safe_url safe_dir t cwd = some true →
      statuses (handle_connection fs root cwd safe_dir data) ≠ [HTTPStatus.FORBIDDEN] := by
    intro fs root hct
    unfold handle_connection
    rw [hp]
    by_cases hd : fs.isDir (candidatePath root t).toStr = true
    · simp [hm, hct, hd]
      exact respondFile_not_forbidden fs m _
    · by_cases hsl : (strippedTarget t).getLast? = some '/'
      · simp [hm, hct, hd, hsl, statuses, errResult]
      · simp [hm, hct, hd, hsl]
        exact respondFile_not_forbidden fs m _
  rcases hck : check_safe_url safe_dir t cwd with - | b
  · constructor <;> intro h <;> exfalso <;>
      [skip; skip] <;> unfold handle_connection at h <;> rw [hp] at h <;>
      simp [hm, hck, statuses] at h
  · cases b
    · have both : ∀ (fs : FS) (root : List Char),
          statuses (handle_connection fs root cwd safe_dir data) = [HTTPStatus.FORBIDDEN] := by
        intro fs root
        unfold handle_connection
        rw [hp]
        simp [hm, hck, statuses, errResult]
      simp [both]
    · exact iff_of_false (key fs1 root1 hck) (key fs2 root2 hck)

/-- C10 witness: the same parsed GET request judged over two different
document roots and filesystem states. -/
theorem c10_forbidden_independent_witness :
    parse_request (strBytes "GET /httptest/index.html HTTP/1.1\r\n\r\n") =
      some { method := "GET".data, target := "/httptest/index.html".data } ∧
    "GET".data ∈ HTTP_METHODS_ALLOWED ∧
    (statuses (handle_connection fsEmpty "/a".data "/".data "/httptest".data
        (strBytes "GET /httptest/index.html HTTP/1.1\r\n\r\n")) = [HTTPStatus.FORBIDDEN] ↔
     statuses (handle_connection fsWit "/srv".data "/".data "/httptest".data
        (strBytes "GET /httptest/index.html HTTP/1.1\r\n\r\n")) = [HTTPStatus.FORBIDDEN]) :=
  ⟨by decide, by decide,
   c10_forbidden_independent fsEmpty fsWit "/a".data "/srv".data "/".data "/httptest".data _
     "GET".data "/httptest/index.html".data (by decide) (by decide)⟩

/-- Splitting on slashes never returns the empty list. -/
theorem splitSlash_ne_nil (l : List Char) : splitSlash l ≠ [] := by
  cases l with
  | nil => simp [splitSlash]
  | cons c t =>
    unfold splitSlash
    by_cases hc : c = '/'
    · simp [hc]
    · rw [if_neg hc]
      rcases splitSlash t with - | ⟨h, r⟩ <;> simp

/-- No piece produced by `splitSlash` contains a slash. -/
theorem mem_splitSlash_no_slash (l : List Char) : ∀ x ∈ splitSlash l, '/' ∉ x := by
  induction l with
  | nil => intro x hx; simp [splitSlash] at hx; simp [hx]
  | cons c t ih =>
    intro x hx
    unfold splitSlash at hx
    by_cases hc : c = '/'
    · rw [if_pos hc] at hx
      simp only [List.mem_cons] at hx
      rcases hx with rfl | hx
      · simp
      · exact ih x hx
    · rw [if_neg hc] at hx
      rcases hh : splitSlash t with - | ⟨h, r⟩
      · exact absurd hh (splitSlash_ne_nil t)
      · rw [hh] at hx
        simp only [List.mem_cons] at hx
        rcases hx with rfl | hx
        · intro hmem
          simp only [List.mem_cons] at hmem
          rcases hmem with heq | hmem
          · exact hc heq.symm
          · exact ih h (by rw [hh]; exact List.mem_cons_self h r) hmem
        · exact ih x (by rw [hh]; exact List.mem_cons_of_mem h hx)

/-- A slash-free string splits into exactly itself. -/
theorem splitSlash_no_slash (a : List Char) (h : '/' ∉ a) : splitSlash a = [a] := by
  induction a with
  | nil => simp [splitSlash]
  | cons c t ih =>
    have hc : c ≠ '/' := fun hh => h (by rw [hh]; exact List.mem_cons_self _ _)
    have ht : '/' ∉ t := fun hh => h (List.mem_cons_of_mem _ hh)
    unfold splitSlash
    rw [if_neg hc, ih ht]

/-- Splitting a slash-free prefix followed by a slash peels one piece. -/
theorem splitSlash_append (a r : List Char) (h : '/' ∉ a) :
    splitSlash (a ++ '/' :: r) = a :: splitSlash r := by
  induction a with
  | nil => simp [splitSlash]
  | cons c t ih =>
    have hc : c ≠ '/' := fun hh => h (by rw [hh]; exact List.mem_cons_self _ _)
    have ht : '/' ∉ t := fun hh => h (List.mem_cons_of_mem _ hh)
    show splitSlash (c :: (t ++ '/' :: r)) = (c :: t) :: splitSlash r
    conv_lhs => unfold splitSlash
    rw [if_neg hc, ih ht]

/-- Components of a slash-joined clean component list gives the list back. -/
theorem pcomps_joinSlash (L : List (List Char))
    (hL : ∀ x ∈ L, x ≠ [] ∧ x ≠ ['.'] ∧ '/' ∉ x) : pcomps (joinSlash L) = L := by
  induction L with
  | nil => simp [joinSlash, pcomps, splitSlash]
  | cons a M ih =>
    rcases hL a (List.mem_cons_self a M) with ⟨ha1, ha2, ha3⟩
    rcases M with - | ⟨b, M2⟩
    · unfold joinSlash pcomps
      rw [splitSlash_no_slash a ha3]
      simp [ha1, ha2]
    · show pcomps (a ++ '/' :: joinSlash (b :: M2)) = a :: b :: M2
      unfold pcomps
      rw [splitSlash_append a _ ha3]
      have ih2 := ih (fun x hx => hL x (List.mem_cons_of_mem a hx))
      unfold pcomps at ih2
      simp only [List.filter]
      rw [show (!(a == [] || a == ['.'])) = true by simp [ha1, ha2]]
      rw [ih2]

/-- A leading slash does not change the components. -/
theorem pcomps_slash_cons (x : List Char) : pcomps ('/' :: x) = pcomps x := by
  unfold pcomps
  have h : splitSlash ('/' :: x) = [] :: splitSlash x := rfl
  rw [h]
  simp [List.filter]

/-- The longest common prefix is a prefix of the right argument. -/
theorem lcp_isPrefixOf_right (A B : List (List Char)) : (lcp A B).isPrefixOf B = true := by
  induction A generalizing B with
  | nil => cases B <;> simp [lcp, List.isPrefixOf]
  | cons a as ih =>
    cases B with
    | nil => simp [lcp, List.isPrefixOf]
    | cons b bs =>
      unfold lcp
      by_cases hab : a == b
      · rw [if_pos hab]
        show (a == b && (lcp as bs).isPrefixOf bs) = true
        rw [hab, ih bs]
        rfl
      · rw [if_neg hab]
        simp [List.isPrefixOf]

/-- Elements of the longest common prefix come from the left argument. -/
theorem mem_lcp_left (A B : List (List Char)) : ∀ x ∈ lcp A B, x ∈ A := by
  induction A generalizing B with
  | nil => intro x hx; cases B <;> simp [lcp] at hx
  | cons a as ih =>
    intro x hx
    cases B with
    | nil => simp [lcp] at hx
    | cons b bs =>
      unfold lcp at hx
      by_cases hab : a == b
      · rw [if_pos hab] at hx
        simp only [List.mem_cons] at hx
        rcases hx with rfl | hx
        · exact List.mem_cons_self x as
        · exact List.mem_cons_of_mem a (ih bs x hx)
      · rw [if_neg hab] at hx
        simp at hx

/-- When `safe` equals the rendering `commonpath` would return, its
components are a prefix of the other path's components. -/
theorem safe_eq_common_prefix (safe m : List Char)
    (heq : safe = (if safe.head? == some '/' then ['/'] else []) ++
      joinSlash (lcp (pcomps safe) (pcomps m))) :
    (pcomps safe).isPrefixOf (pcomps m) = true := by
  have hL : ∀ x ∈ lcp (pcomps safe) (pcomps m), x ≠ [] ∧ x ≠ ['.'] ∧ '/' ∉ x := by
    intro x hx
    have hxA : x ∈ pcomps safe := mem_lcp_left (pcomps safe) (pcomps m) x hx
    unfold pcomps at hxA
    rcases List.mem_filter.mp hxA with ⟨hmem, hpred⟩
    simp at hpred
    exact ⟨hpred.1, hpred.2, mem_splitSlash_no_slash safe x hmem⟩
  set L := lcp (pcomps safe) (pcomps m) with hLdef
  have h2 : pcomps safe = L := by
    by_cases hpre : (safe.head? == some '/') = true
    · rw [if_pos hpre] at heq
      rw [heq]
      show pcomps ('/' :: joinSlash L) = L
      rw [pcomps_slash_cons, pcomps_joinSlash L hL]
    · rw [if_neg hpre] at heq
      rw [heq]
      show pcomps ([] ++ joinSlash L) = L
      rw [List.nil_append, pcomps_joinSlash L hL]
  rw [h2, hLdef]
  exact lcp_isPrefixOf_right (pcomps safe) (pcomps m)

/-- The head of a normalized path that starts with a slash is a slash,
and it is non-empty. -/
theorem normpath_head (p : List Char) (hp : p.head? = some '/') :
    (normpath p).head? = some '/' := by
  have hpne : p ≠ [] := by
    intro h
    rw [h] at hp
    simp at hp
  unfold normpath
  rw [if_neg hpne, if_pos hp]
  by_cases h2 : List.isPrefixOf ['/', '/'] p ∧ ¬ List.isPrefixOf ['/', '/', '/'] p
  · rw [if_pos h2]
    simp
  · rw [if_neg h2]
    simp

/-- Joining keeps an absolute working directory's leading slash when the
second piece is relative. -/
theorem osJoin_head (cwd t : List Char) (hcwd : cwd.head? = some '/')
    (ht : ¬ t.head? = some '/') : (osJoin cwd t).head? = some '/' := by
  rcases cwd with - | ⟨c0, cw⟩
  · simp at hcwd
  · simp at hcwd
    unfold osJoin
    rw [if_neg ht]
    by_cases h2 : (c0 :: cw) = [] ∨ (c0 :: cw).getLast? = some '/'
    · rw [if_pos h2]
      simp [hcwd]
    · rw [if_neg h2]
      simp [hcwd]

/-- The canonical absolute form of any target is an absolute path when the
working directory is absolute. -/
theorem abspath_head (cwd t : List Char) (hcwd : cwd.head? = some '/') :
    (abspath cwd t).head? = some '/' := by
  unfold abspath
  by_cases ht : t.head? = some '/'
  · rw [if_pos ht]
    exact normpath_head t ht
  · rw [if_neg ht]
    exact normpath_head _ (osJoin_head cwd t hcwd ht)

/-- With an absolute safe directory and working directory, the traversal
check computes a Boolean (no `ValueError`), and it can only accept a
target whose canonical form extends the safe directory's components. -/
theorem check_safe_url_false (safe_dir t cwd : List Char)
    (hsafe : safe_dir.head? = some '/') (hcwd : cwd.head? = some '/')
    (hesc : hasPrefixComponent safe_dir (abspath cwd t) = false) :
    check_safe_url safe_dir t cwd = some false := by
  have hm : (abspath cwd t).head? = some '/' := abspath_head cwd t hcwd
  unfold check_safe_url commonpath2
  have hcond : ((safe_dir.head? == some '/') : Bool) = ((abspath cwd t).head? == some '/') := by
    rw [hsafe, hm]
  rw [if_pos hcond]
  have hne : (safe_dir == (if safe_dir.head? == some '/' then ['/'] else []) ++
      joinSlash (lcp (pcomps safe_dir) (pcomps (abspath cwd t)))) = false := by
    rw [beq_eq_false_iff_ne]
    intro heq
    have hpc := safe_eq_common_prefix safe_dir (abspath cwd t) heq
    unfold hasPrefixComponent at hesc
    rw [hpc] at hesc
    simp at hesc
  exact congrArg some hne

/-- C1 counterexample: the request `POST /httptest/../../etc/passwd`
carries a decoded target whose canonical form `/etc/passwd` does not have
the safe-directory boundary `/httptest` as a prefix component, yet the
response is 405 (the method check fires first), not 403 as the claim
requires of every such request. -/
theorem c1_counterexample :
    hasPrefixComponent "/httptest".data
      (abspath "/".data "/httptest/../../etc/passwd".data) = false ∧
    abspath "/".data "/httptest/../../etc/passwd".data = "/etc/passwd".data ∧
    handle_connection fsWit "/srv".data "/".data "/httptest".data
      (strBytes "POST /httptest/../../etc/passwd HTTP/1.1\r\n\r\n") =
      errResult HTTPStatus.METHOD_NOT_ALLOWED := by
  decide

/-- C1 amended: for every successfully parsed GET or HEAD request whose
decoded target canonicalizes to a path that does not have the (absolute)
safe-directory boundary as a prefix component, the handler responds with
exactly 403 Forbidden. -/
theorem c1_traversal_forbidden (fs : FS) (document_root cwd safe_dir : List Char)
    (data : List Nat) (m t : List Char)
    (hp : parse_request data = some { method := m, target := t })
    (hm : m ∈ HTTP_METHODS_ALLOWED)
    (hsafe : safe_dir.head? = some '/') (hcwd : cwd.head? = some '/')
    (hesc : hasPrefixComponent safe_dir (abspath cwd t) = false) :
    handle_connection fs document_root cwd safe_dir data = errResult HTTPStatus.FORBIDDEN := by
  have hck : check_safe_url safe_dir t cwd = some false :=
    check_safe_url_false safe_dir t cwd hsafe hcwd hesc
  unfold handle_connection
  rw [hp]
  simp [hm, hck]

/-- C1 witness: `GET /httptest/../../etc/passwd` is answered with 403. -/
theorem c1_traversal_forbidden_witness :
    parse_request (strBytes "GET /httptest/../../etc/passwd HTTP/1.1\r\n\r\n") =
      some { method := "GET".data, target := "/httptest/../../etc/passwd".data } ∧
    hasPrefixComponent "/httptest".data
      (abspath "/".data "/httptest/../../etc/passwd".data) = false ∧
    handle_connection fsWit "/srv".data "/".data "/httptest".data
      (strBytes "GET /httptest/../../etc/passwd HTTP/1.1\r\n\r\n") =
      errResult HTTPStatus.FORBIDDEN :=
  ⟨by decide, by decide,
   c1_traversal_forbidden fsWit "/srv".data "/".data "/httptest".data _
     "GET".data "/httptest/../../etc/passwd".data
     (by decide) (by decide) (by decide) (by decide) (by decide)⟩

/-- C6 counterexample: a GET for `/httptest/data.xyz`, an existing file
whose extension `.xyz` is not in the content-type table, makes the
handler raise `KeyError`: zero responses are sent and the connection is
never closed, not exactly one of each as the claim requires of every
outcome. -/
theorem c6_counterexample :
    fsWit.file "/srv/httptest/data.xyz".data = some [1, 2, 3] ∧
    (handle_connection fsWit "/srv".data "/".data "/httptest".data
      (strBytes "GET /httptest/data.xyz HTTP/1.1\r\n\r\n")).responses = [] ∧
    (handle_connection fsWit "/srv".data "/".data "/httptest".data
      (strBytes "GET /httptest/data.xyz HTTP/1.1\r\n\r\n")).closes = 0 := by
  decide

/-- C6 amended: the handler raises (sending nothing and closing nothing)
exactly when `handlerCrashes` holds — the request reaches an existing
file whose extension is missing from the content-type table, or the
traversal check itself raises; in every other outcome exactly one
response is sent and the connection is closed exactly once. -/
theorem c6_one_response_one_close (fs : FS) (document_root cwd safe_dir : List Char)
    (data : List Nat) :
    ((handle_connection fs document_root cwd safe_dir data).error =
      handlerCrashes fs document_root cwd safe_dir data) ∧
    (handlerCrashes fs document_root cwd safe_dir data = false →
      (handle_connection fs document_root cwd safe_dir data).responses.length = 1 ∧
      (handle_connection fs document_root cwd safe_dir data).closes = 1) ∧
    (handlerCrashes fs document_root cwd safe_dir data = true →
      (handle_connection fs document_root cwd safe_dir data).responses = [] ∧
      (handle_connection fs document_root cwd safe_dir data).closes = 0) := by
  unfold handle_connection handlerCrashes
  rcases hps : parse_request data with - | req
  · simp [errResult]
  · by_cases hm : req.method ∈ HTTP_METHODS_ALLOWED
    · rcases hcs : check_safe_url safe_dir req.target cwd with - | b
      · simp [hm, hcs]
      · cases b
        · simp [hm, hcs, errResult]
        · by_cases hd : fs.isDir (candidatePath document_root req.target).toStr = true
          · simp only [hm, hcs, if_true, hd, finalCandidate, if_pos hd]
            unfold respondFile
            rcases hf : fs.file ((candidatePath document_root req.target).joinName "index.html".data).toStr with - | bs
            · simp [hm, hcs, hd, errResult, hf]
            · rcases hct : contentTypeFor ((candidatePath document_root req.target).joinName "index.html".data).ext with - | ct
              · simp [hm, hcs, hd, hf, hct]
              · simp [hm, hcs, hd, hf, hct]
          · by_cases hsl : (strippedTarget req.target).getLast? = some '/'
            · simp [hm, hcs, hd, hsl, errResult]
            · simp only [hm, hcs, if_true, hd, hsl, finalCandidate, if_neg hd]
              unfold respondFile
              rcases hf : fs.file (candidatePath document_root req.target).toStr with - | bs
              · simp [hm, hcs, hd, hsl, errResult, hf]
              · rcases hct : contentTypeFor (candidatePath document_root req.target).ext with - | ct
                · simp [hm, hcs, hd, hsl, hf, hct]
                · simp [hm, hcs, hd, hsl, hf, hct]
    · simp [hm, errResult]

/-- Encoding distributes over append. -/
theorem utf8Encode_append (a b : List Char) :
    utf8Encode (a ++ b) = utf8Encode a ++ utf8Encode b := by
  induction a with
  | nil => simp [utf8Encode]
  | cons c t ih =>
    show utf8EncodeChar c ++ utf8Encode (t ++ b) = (utf8EncodeChar c ++ utf8Encode t) ++ utf8Encode b
    rw [ih, List.append_assoc]

/-- Converting back from the code point of a valid scalar value is exact. -/
theorem charToNat_ofNat (n : Nat) (h : n.isValidChar) : (Char.ofNat n).toNat = n := by
  unfold Char.ofNat
  rw [dif_pos h]
  show ({ toBitVec := BitVec.ofNatLt n _ } : UInt32).toNat = n
  simp [UInt32.toNat, BitVec.toNat_ofNatLt]

/-- Decoding the UTF-8 bytes of one character prepended to any byte tail
recovers the character and continues on the tail. -/
theorem utf8DecodeReplace_encodeChar (c : Char) (rest : List Nat) :
    utf8DecodeReplace (utf8EncodeChar c ++ rest) = c :: utf8DecodeReplace rest := by
  have hvn : c.toNat < 0xD800 ∨ (0xDFFF < c.toNat ∧ c.toNat < 0x110000) := c.valid
  have hofn : Char.ofNat c.toNat = c := Char.ofNat_toNat c
  unfold utf8EncodeChar
  by_cases h1 : c.toNat < 0x80
  · rw [if_pos h1]
    show utf8DecodeReplace (c.toNat :: rest) = _
    conv_lhs => unfold utf8DecodeReplace
    rw [if_pos h1, hofn]
  · rw [if_neg h1]
    by_cases h2 : c.toNat < 0x800
    · rw [if_pos h2]
      show utf8DecodeReplace ((0xC0 + c.toNat / 0x40) :: (0x80 + c.toNat % 0x40) :: rest) = _
      conv_lhs => unfold utf8DecodeReplace
      rw [if_neg (by omega), if_pos (by omega)]
      try simp only []
      rw [if_pos (by omega)]
      rw [show (0xC0 + c.toNat / 0x40 - 0xC0) * 0x40 + (0x80 + c.toNat % 0x40 - 0x80) = c.toNat by
        omega]
      rw [hofn]
    · rw [if_neg h2]
      by_cases h3 : c.toNat < 0x10000
      · rw [if_pos h3]
        show utf8DecodeReplace ((0xE0 + c.toNat / 0x1000) :: (0x80 + (c.toNat / 0x40) % 0x40) ::
          (0x80 + c.toNat % 0x40) :: rest) = _
        conv_lhs => unfold utf8DecodeReplace
        rw [if_neg (by omega), if_neg (by omega), if_pos (by omega)]
        try simp only []
        rw [if_pos (by constructor <;> split <;> omega)]
        try simp only []
        rw [if_pos (by omega)]
        rw [show (0xE0 + c.toNat / 0x1000 - 0xE0) * 0x1000 +
          (0x80 + (c.toNat / 0x40) % 0x40 - 0x80) * 0x40 +
          (0x80 + c.toNat % 0x40 - 0x80) = c.toNat by omega]
        rw [hofn]
      · rw [if_neg h3]
        show utf8DecodeReplace ((0xF0 + c.toNat / 0x40000) :: (0x80 + (c.toNat / 0x1000) % 0x40) ::
          (0x80 + (c.toNat / 0x40) % 0x40) :: (0x80 + c.toNat % 0x40) :: rest) = _
        conv_lhs => unfold utf8DecodeReplace
        rw [if_neg (by omega), if_neg (by omega), if_neg (by omega), if_pos (by omega)]
        try simp only []
        rw [if_pos (by constructor <;> split <;> omega)]
        try simp only []
        rw [if_pos (by omega)]
        try simp only []
        rw [if_pos (by omega)]
        rw [show (0xF0 + c.toNat / 0x40000 - 0xF0) * 0x40000 +
          (0x80 + (c.toNat / 0x1000) % 0x40 - 0x80) * 0x1000 +
          (0x80 + (c.toNat / 0x40) % 0x40 - 0x80) * 0x40 +
          (0x80 + c.toNat % 0x40 - 0x80) = c.toNat by omega]
        rw [hofn]

/-- UTF-8 decoding inverts UTF-8 encoding. -/
theorem utf8_roundtrip (l : List Char) : utf8DecodeReplace (utf8Encode l) = l := by
  induction l with
  | nil => rfl
  | cons c t ih =>
    show utf8DecodeReplace (utf8EncodeChar c ++ utf8Encode t) = c :: t
    rw [utf8DecodeReplace_encodeChar, ih]

/-- Every character `natToDecAux` emits (over a digit accumulator) is a
decimal digit. -/
theorem natToDecAux_digits (fuel : Nat) : ∀ (n : Nat) (acc : List Char),
    (∀ c ∈ acc, 48 ≤ c.toNat ∧ c.toNat ≤ 57) →
    ∀ c ∈ natToDecAux fuel n acc, 48 ≤ c.toNat ∧ c.toNat ≤ 57 := by
  induction fuel with
  | zero => intro n acc hacc c hc; exact hacc c hc
  | succ fuel ih =>
    intro n acc hacc c hc
    have hd : (Char.ofNat (48 + n % 10)).toNat = 48 + n % 10 :=
      charToNat_ofNat _ (Or.inl (by omega))
    unfold natToDecAux at hc
    by_cases hn : n < 10
    · rw [if_pos hn] at hc
      simp only [List.mem_cons] at hc
      rcases hc with rfl | hc
      · rw [hd]; omega
      · exact hacc c hc
    · rw [if_neg hn] at hc
      refine ih (n / 10) _ ?_ c hc
      intro d hdm
      simp only [List.mem_cons] at hdm
      rcases hdm with rfl | hdm
      · rw [hd]; omega
      · exact hacc d hdm

/-- The digits of `natToDec` are decimal digit characters. -/
theorem natToDec_digits (n : Nat) : ∀ c ∈ natToDec n, 48 ≤ c.toNat ∧ c.toNat ≤ 57 :=
  natToDecAux_digits (n + 1) n [] (by simp)

/-- The accumulator of `natToDecAux` is just appended. -/
theorem natToDecAux_acc (fuel : Nat) : ∀ (n : Nat) (acc : List Char),
    natToDecAux fuel n acc = natToDecAux fuel n [] ++ acc := by
  induction fuel with
  | zero => intro n acc; simp [natToDecAux]
  | succ fuel ih =>
    intro n acc
    unfold natToDecAux
    by_cases hn : n < 10
    · rw [if_pos hn, if_pos hn]
      simp
    · rw [if_neg hn, if_neg hn]
      rw [ih (n / 10) (Char.ofNat (48 + n % 10) :: acc), ih (n / 10) [Char.ofNat (48 + n % 10)]]
      simp

/-- Folding the decimal digits of `n` back into a number gives `n`. -/
theorem decFold_natToDecAux (fuel : Nat) : ∀ n : Nat, n < 10 ^ fuel →
    (natToDecAux fuel n []).foldl (fun a c => a * 10 + (c.toNat - 48)) 0 = n := by
  induction fuel with
  | zero => intro n hn; interval_cases n; simp [natToDecAux]
  | succ fuel ih =>
    intro n hn
    have hd : (Char.ofNat (48 + n % 10)).toNat = 48 + n % 10 :=
      charToNat_ofNat _ (Or.inl (by omega))
    unfold natToDecAux
    by_cases h10 : n < 10
    · rw [if_pos h10]
      simp [hd]
      omega
    · rw [if_neg h10]
      rw [natToDecAux_acc fuel (n / 10) [Char.ofNat (48 + n % 10)]]
      rw [List.foldl_append]
      have hdiv : n / 10 < 10 ^ fuel := by
        rw [pow_succ, mul_comm] at hn
        exact Nat.div_lt_of_lt_mul hn
      rw [ih (n / 10) hdiv]
      simp [hd]
      omega

/-- Folding the decimal rendering of `n` back gives `n`. -/
theorem decFold_natToDec (n : Nat) :
    (natToDec n).foldl (fun a c => a * 10 + (c.toNat - 48)) 0 = n := by
  unfold natToDec
  refine decFold_natToDecAux (n + 1) n ?_
  calc n < 10 ^ n := Nat.lt_pow_self (by norm_num) n
  _ ≤ 10 ^ (n + 1) := Nat.pow_le_pow_right (by norm_num) (Nat.le_succ n)

/-- ASCII characters encode to their own code points. -/
theorem utf8Encode_ascii (l : List Char) (h : ∀ c ∈ l, c.toNat < 0x80) :
    utf8Encode l = l.map Char.toNat := by
  induction l with
  | nil => rfl
  | cons c t ih =>
    show utf8EncodeChar c ++ utf8Encode t = c.toNat :: t.map Char.toNat
    unfold utf8EncodeChar
    rw [if_pos (h c (List.mem_cons_self c t))]
    rw [ih (fun d hd => h d (List.mem_cons_of_mem c hd))]
    rfl

/-- Reading the UTF-8 bytes of the decimal rendering of `n` back as a
decimal number gives `n`. -/
theorem decFoldBytes_natToDec (n : Nat) : decFoldBytes (utf8Encode (natToDec n)) = n := by
  rw [utf8Encode_ascii (natToDec n) (fun c hc => by have := natToDec_digits n c hc; omega)]
  unfold decFoldBytes
  rw [List.foldl_map]
  exact decFold_natToDec n

/-- The only character whose UTF-8 bytes contain 13 is CR itself. -/
theorem thirteen_mem_encodeChar (c : Char) (h : (13 : Nat) ∈ utf8EncodeChar c) :
    c = Char.ofNat 13 := by
  have hofn : Char.ofNat c.toNat = c := Char.ofNat_toNat c
  unfold utf8EncodeChar at h
  by_cases h1 : c.toNat < 0x80
  · rw [if_pos h1] at h
    simp at h
    rw [← hofn, ← h]
  · rw [if_neg h1] at h
    by_cases h2 : c.toNat < 0x800
    · rw [if_pos h2] at h
      simp at h
      omega
    · rw [if_neg h2] at h
      by_cases h3 : c.toNat < 0x10000
      · rw [if_pos h3] at h
        simp at h
        omega
      · rw [if_neg h3] at h
        simp at h
        omega

/-- A CR-free string encodes to bytes free of 13. -/
theorem thirteen_not_mem_encode (l : List Char) (h : ∀ c ∈ l, c ≠ Char.ofNat 13) :
    (13 : Nat) ∉ utf8Encode l := by
  induction l with
  | nil => simp [utf8Encode]
  | cons c t ih =>
    show (13 : Nat) ∉ utf8EncodeChar c ++ utf8Encode t
    rw [List.mem_append]
    rintro (hm | hm)
    · exact h c (List.mem_cons_self c t) (thirteen_mem_encodeChar c hm)
    · exact ih (fun d hd => h d (List.mem_cons_of_mem c hd)) hm

/-- The bytes of a decimal rendering never contain 13. -/
theorem thirteen_not_mem_natToDec (n : Nat) : (13 : Nat) ∉ utf8Encode (natToDec n) := by
  rw [utf8Encode_ascii (natToDec n) (fun c hc => by have := natToDec_digits n c hc; omega)]
  intro hm
  rcases List.mem_map.mp hm with ⟨c, hc, hval⟩
  have := natToDec_digits n c hc
  omega

/-- No status line rendering contains a CR byte. -/
theorem thirteen_not_mem_statusStr (st : HTTPStatus) :
    (13 : Nat) ∉ utf8Encode (statusStr st) := by
  cases st <;> decide

/-- The status code read back from a rendered status line. -/
theorem statusStr_code (st : HTTPStatus) :
    decFoldBytes ((utf8Encode (statusStr st)).takeWhile isDigitByte) = statusCode st := by
  cases st <;> decide

/-- Splitting at CRLF peels a 13-free piece. -/
theorem splitCRLFBytes_append (xs r : List Nat) (h : (13 : Nat) ∉ xs) :
    splitCRLFBytes (xs ++ 13 :: 10 :: r) = xs :: splitCRLFBytes r := by
  induction xs with
  | nil =>
    show splitCRLFBytes (13 :: 10 :: r) = [] :: splitCRLFBytes r
    conv_lhs => unfold splitCRLFBytes
    rw [if_pos ⟨rfl, rfl⟩]
  | cons a xs2 ih =>
    have ha : a ≠ 13 := fun hh => h (by rw [hh]; exact List.mem_cons_self _ _)
    have hxs : (13 : Nat) ∉ xs2 := fun hh => h (List.mem_cons_of_mem _ hh)
    rcases xs2 with - | ⟨b, xs3⟩
    · show splitCRLFBytes (a :: 13 :: 10 :: r) = [a] :: splitCRLFBytes r
      conv_lhs => unfold splitCRLFBytes
      rw [if_neg (by intro hand; exact ha hand.1)]
      rw [show splitCRLFBytes (13 :: 10 :: r) = [] :: splitCRLFBytes r from ih (by simp)]
    · show splitCRLFBytes (a :: b :: (xs3 ++ 13 :: 10 :: r)) = (a :: b :: xs3) :: splitCRLFBytes r
      conv_lhs => unfold splitCRLFBytes
      rw [if_neg (by intro hand; exact ha hand.1)]
      rw [show splitCRLFBytes (b :: (xs3 ++ 13 :: 10 :: r)) = (b :: xs3) :: splitCRLFBytes r from
        ih hxs]

/-- A list is a Boolean prefix of itself followed by anything. -/
theorem isPrefixOf_append_self (a b : List Nat) : a.isPrefixOf (a ++ b) = true := by
  induction a with
  | nil => simp [List.isPrefixOf]
  | cons x t ih =>
    show ((x == x) && t.isPrefixOf (t ++ b)) = true
    rw [ih]
    simp

/-- Dropping a known leading sequence returns the tail. -/
theorem dropStart_append (a b : List Nat) : dropStart a (a ++ b) = some b := by
  unfold dropStart
  rw [if_pos (isPrefixOf_append_self a b)]
  rw [List.drop_left]

/-- Encoding a cons splits into the head's bytes and the tail's bytes. -/
theorem utf8Encode_cons (c : Char) (l : List Char) :
    utf8Encode (c :: l) = utf8EncodeChar c ++ utf8Encode l := rfl

/-- A non-empty list followed by anything is non-empty. -/
theorem isEmpty_append_false (a b : List Nat) (h : a ≠ []) : (a ++ b).isEmpty = false := by
  rcases a with - | ⟨x, t⟩
  · exact absurd rfl h
  · rfl

/-- C9 amended: serializing any `HTTPResponse` whose `content_type` and
`Date` value contain no CR character, and re-parsing the header block of
the bytes, reproduces the status code, the content type and the content
length that were set when the response was built. -/
theorem c9_roundtrip (st : HTTPStatus) (body : List Nat) (ct now : List Char) (cl : Nat)
    (hctr : ∀ c ∈ ct, c ≠ '\r') (hnowr : ∀ c ∈ now, c ≠ '\r') :
    parseHeaderBlock (serializeResponse
      { status := st, body := body, content_type := ct, content_length := cl } now) =
      some (statusCode st, ct, cl) := by
  have hcr : Char.ofNat 13 = '\r' := by decide
  have h13ct : (13 : Nat) ∉ utf8Encode ct :=
    thirteen_not_mem_encode ct (fun c hc => by rw [hcr]; exact hctr c hc)
  have h13now : (13 : Nat) ∉ utf8Encode now :=
    thirteen_not_mem_encode now (fun c hc => by rw [hcr]; exact hnowr c hc)
  have hX1 : (13 : Nat) ∉ utf8Encode ("HTTP/1.1 ".data) ++ utf8Encode (statusStr st) := by
    intro hm
    rcases List.mem_append.mp hm with hm | hm
    · exact (by decide : (13 : Nat) ∉ utf8Encode ("HTTP/1.1 ".data)) hm
    · exact thirteen_not_mem_statusStr st hm
  have hX2 : (13 : Nat) ∉ utf8Encode ("Date: ".data) ++ utf8Encode now := by
    intro hm
    rcases List.mem_append.mp hm with hm | hm
    · exact (by decide : (13 : Nat) ∉ utf8Encode ("Date: ".data)) hm
    · exact h13now hm
  have hX3 : (13 : Nat) ∉ utf8Encode ("Content-Type: ".data) ++ utf8Encode ct := by
    intro hm
    rcases List.mem_append.mp hm with hm | hm
    · exact (by decide : (13 : Nat) ∉ utf8Encode ("Content-Type: ".data)) hm
    · exact h13ct hm
  have hX4 : (13 : Nat) ∉ utf8Encode ("Content-Length: ".data) ++ utf8Encode (natToDec cl) := by
    intro hm
    rcases List.mem_append.mp hm with hm | hm
    · exact (by decide : (13 : Nat) ∉ utf8Encode ("Content-Length: ".data)) hm
    · exact thirteen_not_mem_natToDec cl hm
  have hser : serializeResponse
      { status := st, body := body, content_type := ct, content_length := cl } now =
      (utf8Encode ("HTTP/1.1 ".data) ++ utf8Encode (statusStr st)) ++ 13 :: 10 ::
      ((utf8Encode ("Date: ".data) ++ utf8Encode now) ++ 13 :: 10 ::
      ((utf8Encode ("Content-Type: ".data) ++ utf8Encode ct) ++ 13 :: 10 ::
      ((utf8Encode ("Content-Length: ".data) ++ utf8Encode (natToDec cl)) ++ 13 :: 10 ::
      (utf8Encode ("Server: Otus-Python-HTTP-Server".data) ++ 13 :: 10 ::
      (utf8Encode ("Connection: close".data) ++ 13 :: 10 :: 13 :: 10 :: body))))) := by
    unfold serializeResponse headChars
    simp only [utf8Encode_append, utf8Encode_cons,
      show utf8Encode [] = [] from rfl,
      show utf8EncodeChar '\r' = [13] from by decide,
      show utf8EncodeChar '\n' = [10] from by decide,
      List.append_assoc, List.cons_append, List.nil_append, List.append_nil]
  unfold parseHeaderBlock headerLines
  rw [hser]
  rw [splitCRLFBytes_append _ _ hX1, splitCRLFBytes_append _ _ hX2,
    splitCRLFBytes_append _ _ hX3, splitCRLFBytes_append _ _ hX4,
    splitCRLFBytes_append _ _ (by decide), splitCRLFBytes_append _ _ (by decide),
    show splitCRLFBytes (13 :: 10 :: body) = [] :: splitCRLFBytes body from
      splitCRLFBytes_append [] body (by simp)]
  simp only [List.takeWhile_cons,
    show ((utf8Encode ("HTTP/1.1 ".data) ++ utf8Encode (statusStr st)).isEmpty) = false from
      isEmpty_append_false _ _ (by decide),
    show ((utf8Encode ("Date: ".data) ++ utf8Encode now).isEmpty) = false from
      isEmpty_append_false _ _ (by decide),
    show ((utf8Encode ("Content-Type: ".data) ++ utf8Encode ct).isEmpty) = false from
      isEmpty_append_false _ _ (by decide),
    show ((utf8Encode ("Content-Length: ".data) ++ utf8Encode (natToDec cl)).isEmpty) = false from
      isEmpty_append_false _ _ (by decide),
    show (utf8Encode ("Server: Otus-Python-HTTP-Server".data)).isEmpty = false from by decide,
    show (utf8Encode ("Connection: close".data)).isEmpty = false from by decide,
    List.isEmpty_nil, Bool.not_false, Bool.not_true, if_true, if_false]
  have hfd : dropStart (utf8Encode ("Content-Type: ".data))
      (utf8Encode ("Date: ".data) ++ utf8Encode now) = none := by
    unfold dropStart
    rw [show utf8Encode ("Content-Type: ".data) =
      [67, 111, 110, 116, 101, 110, 116, 45, 84, 121, 112, 101, 58, 32] from by decide]
    rw [show utf8Encode ("Date: ".data) = [68, 97, 116, 101, 58, 32] from by decide]
    simp [List.isPrefixOf]
  have hcld : dropStart (utf8Encode ("Content-Length: ".data))
      (utf8Encode ("Date: ".data) ++ utf8Encode now) = none := by
    unfold dropStart
    rw [show utf8Encode ("Content-Length: ".data) =
      [67, 111, 110, 116, 101, 110, 116, 45, 76, 101, 110, 103, 116, 104, 58, 32] from by decide]
    rw [show utf8Encode ("Date: ".data) = [68, 97, 116, 101, 58, 32] from by decide]
    simp [List.isPrefixOf]
  have hclct : dropStart (utf8Encode ("Content-Length: ".data))
      (utf8Encode ("Content-Type: ".data) ++ utf8Encode ct) = none := by
    unfold dropStart
    rw [show utf8Encode ("Content-Length: ".data) =
      [67, 111, 110, 116, 101, 110, 116, 45, 76, 101, 110, 103, 116, 104, 58, 32] from by decide]
    rw [show utf8Encode ("Content-Type: ".data) =
      [67, 111, 110, 116, 101, 110, 116, 45, 84, 121, 112, 101, 58, 32] from by decide]
    simp [List.isPrefixOf]
  simp only [dropStart_append, findHeaderValue, hfd, hcld, hclct]
  rw [statusStr_code, utf8_roundtrip, decFoldBytes_natToDec]

/-- C9 counterexample: a Response whose `content_type` contains a CRLF
serializes to a header block that re-parses with a different content
type (`a` instead of `a\r\nX`): the round trip fails for that Response
value. -/
theorem c9_counterexample :
    parseHeaderBlock (serializeResponse
      { status := HTTPStatus.OK, body := [], content_type := "a\r\nX".data,
        content_length := 0 } "D".data) = some (200, "a".data, 0) ∧
    "a".data ≠ "a\r\nX".data := by
  decide

/-- C9 witness: a concrete 200 response with content type `text/html`
and content length 42 round-trips. -/
theorem c9_roundtrip_witness :
    (∀ c ∈ "text/html".data, c ≠ '\r') ∧
    (∀ c ∈ "Mon, 01 Jan 2024 00:00:00 GMT".data, c ≠ '\r') ∧
    parseHeaderBlock (serializeResponse
      { status := HTTPStatus.OK, body := [104], content_type := "text/html".data,
        content_length := 42 } "Mon, 01 Jan 2024 00:00:00 GMT".data) =
      some (statusCode HTTPStatus.OK, "text/html".data, 42) :=
  ⟨by decide, by decide,
   c9_roundtrip HTTPStatus.OK [104] "text/html".data "Mon, 01 Jan 2024 00:00:00 GMT".data 42
     (by decide) (by decide)⟩
